import Mathlib

/-!
Verification development for the fastmail demo webmail service.

The JavaScript sources are embedded shallowly:

* JS `Map` objects become association lists (`alookup` / `aset` / `aerase`)
  that mirror `Map.get` / `Map.set` / `Map.delete`, including `Map.set`'s
  behaviour of updating an existing key in place and appending new keys.
* `randomUUID()` becomes a fresh-id counter (`nextId`) threaded through the
  state; `clock()` (`new Date()`) becomes a monotone `now : Nat` counter.
  ISO timestamp strings are represented by the `Nat` instants themselves.
* Thrown `Error(msg)` values become `Except String` results carrying the
  thrown message.  Mutating operations return the post-state alongside the
  result so that partial mutation before a throw stays observable.
* The JS field `from` is called `fromAddr` (`from` is a Lean keyword);
  the JS field `to` is called `toAddr` (also a Lean keyword).
-/

/-- JS `Map.get`: first binding of the key, if any. -/
def alookup {K V : Type} [DecidableEq K] : List (K × V) → K → Option V
  | [], _ => none
  | (k, v) :: rest, k' => if k = k' then some v else alookup rest k'

/-- JS `Map.set`: replace the binding in place if the key exists, else append. -/
def aset {K V : Type} [DecidableEq K] : List (K × V) → K → V → List (K × V)
  | [], k, v => [(k, v)]
  | (k0, v0) :: rest, k, v =>
      if k0 = k then (k, v) :: rest else (k0, v0) :: aset rest k v

/-- JS `Map.delete`: remove the binding of the key, if present. -/
def aerase {K V : Type} [DecidableEq K] : List (K × V) → K → List (K × V)
  | [], _ => []
  | (k0, v0) :: rest, k => if k0 = k then rest else (k0, v0) :: aerase rest k

theorem alookup_aset {K V : Type} [DecidableEq K] (m : List (K × V)) (k k' : K) (v : V) :
    alookup (aset m k v) k' = if k = k' then some v else alookup m k' := by
  induction m with
  | nil => by_cases h : k = k' <;> simp [aset, alookup, h]
  | cons hd tl ih =>
    obtain ⟨k0, v0⟩ := hd
    by_cases h0 : k0 = k
    · subst h0
      by_cases h : k0 = k' <;> simp [aset, alookup, h]
    · by_cases h : k = k'
      · subst h
        simp [aset, h0, alookup, ih]
      · by_cases h1 : k0 = k'
        · subst h1
          simp [aset, h0, alookup, h]
        · simp [aset, h0, alookup, h1, ih, h]

theorem alookup_aset_self {K V : Type} [DecidableEq K] (m : List (K × V)) (k : K) (v : V) :
    alookup (aset m k v) k = some v := by
  simp [alookup_aset]

theorem alookup_aset_ne {K V : Type} [DecidableEq K] (m : List (K × V)) {k k' : K} (v : V)
    (h : k ≠ k') : alookup (aset m k v) k' = alookup m k' := by
  simp [alookup_aset, h]

theorem alookup_aerase_of_not_mem {K V : Type} [DecidableEq K] (m : List (K × V)) (k : K)
    (v : V) (h : alookup m k = none) :
    aerase (aset m k v) k = m ∧ alookup (aerase (aset m k v) k) k = none := by
  induction m with
  | nil => simp [aset, aerase, alookup]
  | cons hd tl ih =>
    obtain ⟨k0, v0⟩ := hd
    by_cases h0 : k0 = k
    · subst h0
      simp [alookup] at h
    · simp [alookup, h0] at h
      obtain ⟨ih1, ih2⟩ := ih h
      constructor
      · simp [aset, aerase, h0, ih1]
      · simp [aset, aerase, h0, alookup, ih2]

/-- Executable model of JS `String.prototype.trim()` (strip surrounding
whitespace), written over the character list so it evaluates in the kernel. -/
def jsTrim (s : String) : String :=
  ⟨((s.data.dropWhile Char.isWhitespace).reverse.dropWhile Char.isWhitespace).reverse⟩

/-- Executable model of JS `String.prototype.toLowerCase()`. -/
def jsToLower (s : String) : String :=
  ⟨s.data.map Char.toLower⟩

/-- Message status values used by the service. -/
inductive Status where
  | draft
  | unread
  | read
  | sent
deriving DecidableEq

/-- The service's message record (§3 of the spec, `src/emailService.js`). -/
structure Msg where
  id : Nat
  fromAddr : String
  toAddr : String
  subject : String
  body : String
  status : Status
  mailbox : String
  createdAt : Nat
  updatedAt : Nat
  sentAt : Option Nat := none
  receivedAt : Option Nat := none
deriving DecidableEq

/-! ## Draft-capable service (the `EmailService` variant with `createDraft`/`sendDraft`) -/

/-- State of the draft-capable `EmailService` (`src/unnamed/part_002`, first
version): `mailboxes` (name → newest-first message list), a flat `messages`
index, the auxiliary `drafts` index, the fresh-id counter and the clock. -/
structure DraftSvc where
  mailboxes : List (String × List Msg)
  messages : List (Nat × Msg)
  drafts : List (Nat × Msg)
  nextId : Nat
  now : Nat

/-- The constructor: `DEFAULT_MAILBOXES = ['inbox', 'sent', 'drafts']`. -/
def DraftSvc.init : DraftSvc :=
  { mailboxes := [("inbox", []), ("sent", []), ("drafts", [])]
    messages := [], drafts := [], nextId := 0, now := 0 }

/-- `_mailbox(name)`: the list for `name`, defaulting to `[]` if absent
(the JS method inserts an empty array on demand). -/
def DraftSvc.mbox (s : DraftSvc) (name : String) : List Msg :=
  (alookup s.mailboxes name).getD []

/-- `_replaceInMailbox(name, id, updatedMessage)`. -/
def replaceInMailbox (name : String) (id : Nat) (updated : Msg)
    (boxes : List (String × List Msg)) : List (String × List Msg) :=
  match alookup boxes name with
  | none => boxes
  | some lst =>
      match lst.findIdx? (fun m => m.id = id) with
      | none => boxes
      | some i => aset boxes name (lst.set i updated)

/-- `_removeFromMailbox(name, id)`. -/
def removeFromMailbox (name : String) (id : Nat)
    (boxes : List (String × List Msg)) : List (String × List Msg) :=
  match alookup boxes name with
  | none => boxes
  | some lst =>
      match lst.findIdx? (fun m => m.id = id) with
      | none => boxes
      | some i => aset boxes name (lst.eraseIdx i)

/-- A draft payload (`{from, to, subject, body}`); absent fields are `""`. -/
structure DraftPayload where
  fromAddr : String
  toAddr : String
  subject : String
  body : String := ""

/-- `createDraft(payload)`. -/
def createDraft (s : DraftSvc) (p : DraftPayload) : Except String (Msg × DraftSvc) := do
  if jsTrim p.fromAddr = "" then throw "from is required"
  if jsTrim p.toAddr = "" then throw "to is required"
  if jsTrim p.subject = "" then throw "subject is required"
  let ts := s.now
  let draft : Msg :=
    { id := s.nextId, fromAddr := jsTrim p.fromAddr, toAddr := jsTrim p.toAddr,
      subject := jsTrim p.subject, body := p.body, status := .draft,
      mailbox := "drafts", createdAt := ts, updatedAt := ts }
  pure (draft,
    { s with
        messages := aset s.messages draft.id draft
        drafts := aset s.drafts draft.id draft
        mailboxes := aset s.mailboxes "drafts" (draft :: s.mbox "drafts")
        nextId := s.nextId + 1
        now := s.now + 1 })

/-- `sendDraft(id)`. -/
def sendDraft (s : DraftSvc) (id : Nat) : Except String (Msg × DraftSvc) := do
  match alookup s.drafts id with
  | none => throw "draft not found"
  | some draft =>
    if draft.status = .sent then throw "draft already sent"
    let ts := s.now
    let sentMessage : Msg :=
      { draft with status := .sent, mailbox := "sent", sentAt := some ts, updatedAt := ts }
    let boxes := replaceInMailbox "drafts" id sentMessage s.mailboxes
    let boxes := removeFromMailbox "drafts" id boxes
    let s1 : DraftSvc :=
      { s with
          messages := aset s.messages id sentMessage
          mailboxes := boxes
          drafts := aerase s.drafts id
          now := s.now + 1 }
    let s1 := { s1 with mailboxes := aset s1.mailboxes "sent" (sentMessage :: s1.mbox "sent") }
    let deliveredMessage : Msg :=
      { sentMessage with id := s.nextId, mailbox := "inbox", status := .unread }
    let s2 : DraftSvc :=
      { s1 with
          messages := aset s1.messages deliveredMessage.id deliveredMessage
          mailboxes := aset s1.mailboxes "inbox" (deliveredMessage :: s1.mbox "inbox")
          nextId := s.nextId + 1 }
    pure (sentMessage, s2)

/-! ### Characterization of `createDraft` / `sendDraft` on valid inputs -/

/-- The draft record built by a successful `createDraft`. -/
def mkDraftMsg (s : DraftSvc) (p : DraftPayload) : Msg :=
  { id := s.nextId, fromAddr := jsTrim p.fromAddr, toAddr := jsTrim p.toAddr,
    subject := jsTrim p.subject, body := p.body, status := .draft,
    mailbox := "drafts", createdAt := s.now, updatedAt := s.now }

/-- The state after a successful `createDraft`. -/
def stateAfterCreate (s : DraftSvc) (p : DraftPayload) : DraftSvc :=
  { s with
      messages := aset s.messages s.nextId (mkDraftMsg s p)
      drafts := aset s.drafts s.nextId (mkDraftMsg s p)
      mailboxes := aset s.mailboxes "drafts" (mkDraftMsg s p :: s.mbox "drafts")
      nextId := s.nextId + 1
      now := s.now + 1 }

theorem createDraft_eq (s : DraftSvc) (p : DraftPayload)
    (hf : ¬ jsTrim p.fromAddr = "") (ht : ¬ jsTrim p.toAddr = "") (hs : ¬ jsTrim p.subject = "") :
    createDraft s p = .ok (mkDraftMsg s p, stateAfterCreate s p) := by
  simp [createDraft, hf, ht, hs, mkDraftMsg, stateAfterCreate, pure, Except.pure, bind,
    Except.bind]

theorem aset_aset {K V : Type} [DecidableEq K] (m : List (K × V)) (k : K) (v v' : V) :
    aset (aset m k v) k v' = aset m k v' := by
  induction m with
  | nil => simp [aset]
  | cons hd tl ih =>
    obtain ⟨k0, v0⟩ := hd
    by_cases h0 : k0 = k
    · subst h0
      simp [aset]
    · simp [aset, h0, ih]

/-- The sent message produced by `sendDraft` after `createDraft`. -/
def sentOfDraft (s : DraftSvc) (p : DraftPayload) : Msg :=
  { mkDraftMsg s p with
      status := .sent
      mailbox := "sent"
      sentAt := some (s.now + 1)
      updatedAt := s.now + 1 }

/-- The synthesized inbox copy produced by `sendDraft` after `createDraft`. -/
def deliveredOfDraft (s : DraftSvc) (p : DraftPayload) : Msg :=
  { sentOfDraft s p with id := s.nextId + 1, mailbox := "inbox", status := .unread }

/-- The state after `createDraft` followed by `sendDraft` of the new draft. -/
def stateAfterSend (s : DraftSvc) (p : DraftPayload) : DraftSvc :=
  { mailboxes :=
      aset (aset (aset s.mailboxes "drafts" (s.mbox "drafts"))
          "sent" (sentOfDraft s p :: s.mbox "sent"))
        "inbox" (deliveredOfDraft s p :: s.mbox "inbox")
    messages := aset (aset s.messages s.nextId (sentOfDraft s p))
        (s.nextId + 1) (deliveredOfDraft s p)
    drafts := s.drafts
    nextId := s.nextId + 2
    now := s.now + 2 }

theorem sendDraft_after_create (s : DraftSvc) (p : DraftPayload)
    (hfresh : alookup s.drafts s.nextId = none) :
    sendDraft (stateAfterCreate s p) s.nextId =
      .ok (sentOfDraft s p, stateAfterSend s p) := by
  have hdel := alookup_aerase_of_not_mem s.drafts s.nextId (mkDraftMsg s p) hfresh
  simp only [mkDraftMsg] at hdel
  simp only [sendDraft, stateAfterCreate, alookup_aset_self]
  simp only [mkDraftMsg]
  simp [replaceInMailbox, removeFromMailbox, alookup_aset_self, aset_aset, hdel.1,
    List.findIdx?_cons, DraftSvc.mbox, pure, Except.pure, bind, Except.bind, mkDraftMsg,
    alookup_aset_ne _ _ (by decide : ("drafts" : String) ≠ "sent"),
    alookup_aset_ne _ _ (by decide : ("drafts" : String) ≠ "inbox"),
    alookup_aset_ne _ _ (by decide : ("sent" : String) ≠ "inbox"),
    sentOfDraft, deliveredOfDraft, stateAfterSend]

/-- C1: evaluating `sendDraft` twice on a freshly created draft.  The first
send succeeds; the second send reports `"draft not found"` (a `NotFoundError`)
rather than the `ConflictError` `"draft already sent"`, because a successful
`sendDraft` deletes the id from the draft index, making the
`draft.status === 'sent'` conflict branch unreachable. -/
theorem sendDraft_resend_reports_not_found :
    ∃ d s1 m s2,
      createDraft DraftSvc.init { fromAddr := "a@x.test", toAddr := "b@x.test", subject := "hi" }
        = .ok (d, s1) ∧
      sendDraft s1 d.id = .ok (m, s2) ∧ m.status = .sent ∧
      sendDraft s2 d.id = Except.error "draft not found" := by
  refine ⟨mkDraftMsg DraftSvc.init _, stateAfterCreate DraftSvc.init _,
    sentOfDraft DraftSvc.init _, stateAfterSend DraftSvc.init _,
    createDraft_eq _ _ (by decide) (by decide) (by decide),
    sendDraft_after_create _ _ rfl, rfl, rfl⟩

/-- C2: for every valid draft payload (`from`/`to`/`subject` non-empty after
trim) and any state whose next generated id is fresh, `createDraft` followed
by `sendDraft` yields a message with `status=sent`, `mailbox=sent` and a fresh
`sentAt`; the draft is removed from the drafts mailbox list and the draft
index; and a second message with a distinct fresh id lands at the head of the
`inbox` mailbox with `status=unread`. -/
theorem createDraft_then_sendDraft_spec (s : DraftSvc) (p : DraftPayload)
    (hf : ¬ jsTrim p.fromAddr = "") (ht : ¬ jsTrim p.toAddr = "")
    (hs : ¬ jsTrim p.subject = "")
    (hfresh : alookup s.drafts s.nextId = none)
    (hfresh2 : ∀ x ∈ s.mbox "drafts", x.id ≠ s.nextId) :
    ∃ d s1 m s2,
      createDraft s p = .ok (d, s1) ∧
      sendDraft s1 d.id = .ok (m, s2) ∧
      m.status = .sent ∧ m.mailbox = "sent" ∧ m.sentAt = some (s.now + 1) ∧
      m.createdAt = s.now ∧ m.id = d.id ∧
      alookup s2.drafts d.id = none ∧
      s2.mbox "drafts" = s.mbox "drafts" ∧
      (∀ x ∈ s2.mbox "drafts", x.id ≠ d.id) ∧
      (∃ c, s2.mbox "inbox" = c :: s.mbox "inbox" ∧ c.status = .unread ∧
        c.mailbox = "inbox" ∧ c.id ≠ m.id ∧ alookup s2.messages c.id = some c) := by
  refine ⟨mkDraftMsg s p, stateAfterCreate s p, sentOfDraft s p, stateAfterSend s p,
    createDraft_eq s p hf ht hs, sendDraft_after_create s p hfresh,
    rfl, rfl, rfl, rfl, rfl, ?_, ?_, ?_, ?_⟩
  · exact hfresh
  · simp [stateAfterSend, DraftSvc.mbox,
      alookup_aset_ne _ _ (by decide : ("inbox" : String) ≠ "drafts"),
      alookup_aset_ne _ _ (by decide : ("sent" : String) ≠ "drafts"),
      alookup_aset_self]
  · intro x hx
    rw [show stateAfterSend s p = stateAfterSend s p from rfl] at hx
    have hx' : x ∈ s.mbox "drafts" := by
      simpa [stateAfterSend, DraftSvc.mbox,
        alookup_aset_ne _ _ (by decide : ("inbox" : String) ≠ "drafts"),
        alookup_aset_ne _ _ (by decide : ("sent" : String) ≠ "drafts"),
        alookup_aset_self] using hx
    simpa [mkDraftMsg] using hfresh2 x hx'
  · refine ⟨deliveredOfDraft s p, ?_, rfl, rfl, ?_, ?_⟩
    · simp [stateAfterSend, DraftSvc.mbox, alookup_aset_self]
    · simp [deliveredOfDraft, sentOfDraft, mkDraftMsg]
    · simp [stateAfterSend, deliveredOfDraft, sentOfDraft, mkDraftMsg, alookup_aset_self]

/-- Witness for `createDraft_then_sendDraft_spec` at a concrete payload and
the initial state. -/
theorem createDraft_then_sendDraft_spec_witness :
    ∃ d s1 m s2,
      createDraft DraftSvc.init { fromAddr := "a@x.test", toAddr := "b@x.test", subject := "hi" }
        = .ok (d, s1) ∧
      sendDraft s1 d.id = .ok (m, s2) ∧
      m.status = .sent ∧ m.mailbox = "sent" ∧ m.sentAt = some (DraftSvc.init.now + 1) ∧
      m.createdAt = DraftSvc.init.now ∧ m.id = d.id ∧
      alookup s2.drafts d.id = none ∧
      s2.mbox "drafts" = DraftSvc.init.mbox "drafts" ∧
      (∀ x ∈ s2.mbox "drafts", x.id ≠ d.id) ∧
      (∃ c, s2.mbox "inbox" = c :: DraftSvc.init.mbox "inbox" ∧ c.status = .unread ∧
        c.mailbox = "inbox" ∧ c.id ≠ m.id ∧ alookup s2.messages c.id = some c) :=
  createDraft_then_sendDraft_spec DraftSvc.init _
    (by decide) (by decide) (by decide) rfl (by simp [DraftSvc.mbox, DraftSvc.init, alookup])

/-! ## Address normalizer (`_parseAddresses` / `_normalizeRecipientList`)

The external `nodemailer/lib/addressparser` and `validator.isEmail`
collaborators are not part of this repository; the wrapper code is embedded
over abstract `parser` / `isEmail` parameters. -/

/-- An item produced by the external address parser (`{name, address}`);
`""` models a missing/empty field (JS falsiness). -/
structure RawAddr where
  name : String
  address : String
deriving DecidableEq

/-- An entry of `_parseAddresses`' result (`{address, formatted}`). -/
structure ParsedAddr where
  address : String
  formatted : String
deriving DecidableEq

/-- `_parseAddresses(value)`: map each parsed item to its lower-cased trimmed
address and its formatted form, then drop entries whose address is empty or
fails validation. -/
def parseAddresses (parser : String → List RawAddr) (isEmail : String → Bool)
    (value : String) : List ParsedAddr :=
  ((parser value).map (fun item =>
    { address := if item.address ≠ "" then jsToLower (jsTrim item.address) else ""
      formatted :=
        if item.name ≠ "" then item.name ++ " <" ++ item.address ++ ">"
        else item.address })).filter
    (fun item => item.address ≠ "" && isEmail item.address)

/-- `_normalizeRecipientList(value)`. -/
def normalizeRecipientList (parser : String → List RawAddr) (isEmail : String → Bool)
    (value : String) : Except String String :=
  let recipients := parseAddresses parser isEmail value
  if recipients.isEmpty then .error "to must include at least one valid email address"
  else .ok (String.intercalate ", " (recipients.map (fun r => r.formatted)))

/-- Modelled from the spec: the external `nodemailer` address parser is not in
this repository.  This instance records its behaviour on the two §8 example
inputs: a bare invalid token parses to a single name-less item, and
`"Alice <alice@example.com>"` parses to a named item. -/
def specParser : String → List RawAddr := fun input =>
  if input = "Alice <alice@example.com>" then [{ name := "Alice", address := "alice@example.com" }]
  else if input = "not-an-email" then [{ name := "", address := "not-an-email" }]
  else []

/-- Modelled from the spec: `validator.isEmail` is not in this repository;
the spec only requires syntactic validation, which this instance approximates
by requiring an `@` sign (enough to separate the §8 examples). -/
def specIsEmail : String → Bool := fun s => s.data.contains '@'

/-- C7: `parseAddresses` lower-cases each kept address, keeps the display name
in the formatted form, and silently drops invalid or empty entries (kept
entries are exactly the valid ones); `normalizeRecipientList` joins the valid
formatted addresses with `", "` and fails with the `ValidationError` message
exactly when no entry validates; in particular `"not-an-email"` is rejected
and `"Alice <alice@example.com>"` yields `"Alice <alice@example.com>"`. -/
theorem parseAddresses_normalize_spec :
    (∀ parser isEmail value item, item ∈ parseAddresses parser isEmail value →
      item.address ≠ "" ∧ isEmail item.address = true ∧
      ∃ raw, raw ∈ parser value ∧ raw.address ≠ "" ∧
        item.address = jsToLower (jsTrim raw.address) ∧
        item.formatted =
          (if raw.name ≠ "" then raw.name ++ " <" ++ raw.address ++ ">" else raw.address)) ∧
    (∀ parser isEmail value raw, raw ∈ parser value →
      jsToLower (jsTrim raw.address) ≠ "" → raw.address ≠ "" →
      isEmail (jsToLower (jsTrim raw.address)) = true →
      (⟨jsToLower (jsTrim raw.address),
        if raw.name ≠ "" then raw.name ++ " <" ++ raw.address ++ ">" else raw.address⟩ : ParsedAddr)
        ∈ parseAddresses parser isEmail value) ∧
    (∀ parser isEmail value,
      (normalizeRecipientList parser isEmail value =
          .error "to must include at least one valid email address" ↔
        parseAddresses parser isEmail value = []) ∧
      (parseAddresses parser isEmail value ≠ [] →
        normalizeRecipientList parser isEmail value =
          .ok (String.intercalate ", "
            ((parseAddresses parser isEmail value).map (fun r => r.formatted))))) ∧
    (parseAddresses specParser specIsEmail "Alice <alice@example.com>" =
        [{ address := "alice@example.com", formatted := "Alice <alice@example.com>" }] ∧
      normalizeRecipientList specParser specIsEmail "Alice <alice@example.com>" =
        .ok "Alice <alice@example.com>" ∧
      normalizeRecipientList specParser specIsEmail "not-an-email" =
        .error "to must include at least one valid email address") := by
  refine ⟨?_, ?_, ?_, by decide, by rfl, by rfl⟩
  · intro parser isEmail value item hmem
    simp only [parseAddresses, List.mem_filter, List.mem_map] at hmem
    obtain ⟨⟨raw, hraw, hitem⟩, hkeep⟩ := hmem
    subst hitem
    simp only [Bool.and_eq_true, decide_eq_true_eq] at hkeep
    obtain ⟨hne, hmail⟩ := hkeep
    by_cases hra : raw.address = ""
    · simp [hra] at hne
    · refine ⟨by simpa [hra] using hne, by simpa [hra] using hmail, raw, hraw, hra, ?_, ?_⟩
      · simp [hra]
      · rfl
  · intro parser isEmail value raw hraw hne hra hmail
    simp only [parseAddresses, List.mem_filter, List.mem_map]
    refine ⟨⟨raw, hraw, ?_⟩, ?_⟩
    · simp [hra]
    · simpa [hne] using hmail
  · intro parser isEmail value
    by_cases h : (parseAddresses parser isEmail value).isEmpty
    · have h' : parseAddresses parser isEmail value = [] := by
        simpa [List.isEmpty_iff] using h
      simp [normalizeRecipientList, h, h']
    · have h' : parseAddresses parser isEmail value ≠ [] := by
        simpa [List.isEmpty_iff] using h
      simp [normalizeRecipientList, h, h']

/-- Witness for `parseAddresses_normalize_spec` at the §8 example inputs. -/
theorem parseAddresses_normalize_spec_witness :
    ((⟨"alice@example.com", "Alice <alice@example.com>"⟩ : ParsedAddr) ∈
        parseAddresses specParser specIsEmail "Alice <alice@example.com>") ∧
    ((⟨"alice@example.com", "Alice <alice@example.com>"⟩ : ParsedAddr).address ≠ "" ∧
      specIsEmail (⟨"alice@example.com", "Alice <alice@example.com>"⟩ : ParsedAddr).address
        = true ∧
      ∃ raw, raw ∈ specParser "Alice <alice@example.com>" ∧ raw.address ≠ "" ∧
        (⟨"alice@example.com", "Alice <alice@example.com>"⟩ : ParsedAddr).address =
          jsToLower (jsTrim raw.address) ∧
        (⟨"alice@example.com", "Alice <alice@example.com>"⟩ : ParsedAddr).formatted =
          (if raw.name ≠ "" then raw.name ++ " <" ++ raw.address ++ ">" else raw.address)) ∧
    (normalizeRecipientList specParser specIsEmail "not-an-email" =
        .error "to must include at least one valid email address" ↔
      parseAddresses specParser specIsEmail "not-an-email" = []) :=
  ⟨by decide,
    parseAddresses_normalize_spec.1 specParser specIsEmail "Alice <alice@example.com>" _
      (by decide),
    (parseAddresses_normalize_spec.2.2.1 specParser specIsEmail "not-an-email").1⟩

/-! ## Main service (`src/unnamed/part_001`, the current `src/emailService.js`)

The IMAP-backed branches of the dispatching methods are passed in as opaque
function parameters (the adapter itself is modelled separately below); the
SMTP relay (`transport.sendMail`) is modelled by a success flag. -/

/-- A user record.  `usesImap` abstracts `_imapConfigFor(user) !== null`
(the merged IMAP configuration resolves); `usesLocal` is
`usesLocalMailServer`. -/
structure UserR where
  id : Nat
  email : String
  name : String
  usesImap : Bool
  usesLocal : Bool := false
  localPassword : Option String := none
deriving DecidableEq

/-- Service state: `users` (email → record), `userIndex` (id → record),
per-user mailbox maps and flat message indexes, and whether a local mail
server is attached (`this.localMailServer`). -/
structure Svc where
  users : List (String × UserR)
  userIndex : List (Nat × UserR)
  mailboxes : List (Nat × List (String × List Msg))
  messages : List (Nat × List (Nat × Msg))
  localMail : Bool
  nextId : Nat
  now : Nat

/-- An entry of `listMailboxes`' result (`{name, total, unread}`). -/
structure MailboxInfo where
  name : String
  total : Nat
  unread : Nat
deriving DecidableEq

/-- JS `String.prototype.includes` over character lists. -/
def hasSub (pat : List Char) : List Char → Bool
  | [] => pat.isEmpty
  | c :: rest => pat.isPrefixOf (c :: rest) || hasSub pat rest

/-- `haystack.includes(needle)`. -/
def jsIncludes (s pat : String) : Bool :=
  hasSub pat.data s.data

/-- `mailboxPriority(name)`. -/
def mailboxPriority (name : String) : Nat :=
  let v := jsToLower name
  if v = "inbox" then 0
  else if jsIncludes v "sent" then 1
  else if jsIncludes v "draft" then 2
  else if jsIncludes v "archive" then 3
  else if jsIncludes v "spam" || jsIncludes v "junk" then 4
  else if jsIncludes v "trash" then 5
  else 10

/-- The comparator `mailboxPriority(a) - mailboxPriority(b) || localeCompare`,
as an ordering relation. -/
def mailboxLE (a b : MailboxInfo) : Prop :=
  mailboxPriority a.name < mailboxPriority b.name ∨
    (mailboxPriority a.name = mailboxPriority b.name ∧ a.name ≤ b.name)

instance : DecidableRel mailboxLE := fun a b => by
  unfold mailboxLE; infer_instance

/-- `_storeMessage(userId, message)`: prepend to the target mailbox list and
upsert the flat index. -/
def storeMessage (s : Svc) (uid : Nat) (m : Msg) : Except String Svc :=
  match alookup s.mailboxes uid with
  | none => .error "user not found"
  | some boxes =>
    match alookup boxes m.mailbox with
    | none => .error ("mailbox not found: " ++ m.mailbox)
    | some lst =>
      .ok { s with
              mailboxes := aset s.mailboxes uid (aset boxes m.mailbox (m :: lst))
              messages :=
                aset s.messages uid (aset ((alookup s.messages uid).getD []) m.id m) }

/-- The in-memory branch of `getMessage`. -/
def getMessageInMem (s : Svc) (uid mid : Nat) : Except String Msg :=
  match alookup s.messages uid with
  | none => .error "message not found"
  | some idx =>
    match alookup idx mid with
    | none => .error "message not found"
    | some m => .ok m

/-- `getMessage(userId, messageId)`: backend dispatch; the IMAP branch is the
opaque `imapGet`. -/
def getMessage (imapGet : UserR → Nat → Svc → Except String Msg × Svc)
    (s : Svc) (uid mid : Nat) : Except String Msg × Svc :=
  match alookup s.userIndex uid with
  | none => (.error "user not found", s)
  | some user =>
    if user.usesImap then imapGet user mid s
    else (getMessageInMem s uid mid, s)

/-- `markRead(userId, messageId)`: backend dispatch; the IMAP branch is the
opaque `imapMark`. -/
def markRead (imapMark : UserR → Nat → Svc → Except String Msg × Svc)
    (s : Svc) (uid mid : Nat) : Except String Msg × Svc :=
  match alookup s.userIndex uid with
  | none => (.error "user not found", s)
  | some user =>
    if user.usesImap then imapMark user mid s
    else
      match getMessageInMem s uid mid with
      | .error e => (.error e, s)
      | .ok message =>
        let ts := s.now
        let s1 : Svc := { s with now := s.now + 1 }
        let updated : Msg := { message with status := .read, updatedAt := ts }
        match alookup s1.mailboxes uid with
        | none => (.error "user not found", s1)
        | some boxes =>
          match alookup boxes message.mailbox with
          | none => (.error "mailbox not found", s1)
          | some lst =>
            let lst' :=
              match lst.findIdx? (fun item => item.id = mid) with
              | some i => lst.set i updated
              | none => lst
            (.ok updated,
              { s1 with
                  mailboxes := aset s1.mailboxes uid (aset boxes message.mailbox lst')
                  messages :=
                    aset s1.messages uid
                      (aset ((alookup s1.messages uid).getD []) mid updated) })

/-- `listMailboxes(userId)`: backend dispatch; the local-mail-server and IMAP
branches are the opaque `localList` / `imapList`. -/
def listMailboxes (localList : String → List MailboxInfo)
    (imapList : UserR → Svc → Except String (List MailboxInfo))
    (s : Svc) (uid : Nat) : Except String (List MailboxInfo) :=
  match alookup s.userIndex uid with
  | none => .error "user not found"
  | some user =>
    if s.localMail && user.usesLocal then
      .ok (List.insertionSort mailboxLE (localList user.email))
    else if user.usesImap then imapList user s
    else
      match alookup s.mailboxes uid with
      | none => .error "user not found"
      | some boxes =>
        .ok (boxes.map (fun nb =>
          { name := nb.1, total := nb.2.length
            unread := (nb.2.filter (fun m => m.status = .unread)).length }))

/-- The body of `_deliverInternalRecipients`' `forEach`: for each parsed
recipient, skip unknown addresses and IMAP-backed users, otherwise store a
fresh unread inbox copy; a `_storeMessage` throw aborts the loop. -/
def deliverLoop (msg : Msg) : List ParsedAddr → Svc → Option String × Svc
  | [], s => (none, s)
  | r :: rest, s =>
    match alookup s.users r.address with
    | none => deliverLoop msg rest s
    | some u =>
      if u.usesImap then deliverLoop msg rest s
      else
        let ts := s.now
        let s1 : Svc := { s with now := s.now + 1 }
        let inboxMessage : Msg :=
          { id := s1.nextId, fromAddr := msg.fromAddr, toAddr := r.address,
            subject := msg.subject, body := msg.body, status := .unread,
            mailbox := "inbox", createdAt := ts, updatedAt := ts, receivedAt := some ts }
        let s2 : Svc := { s1 with nextId := s1.nextId + 1 }
        match storeMessage s2 u.id inboxMessage with
        | .error e => (some e, s2)
        | .ok s3 => deliverLoop msg rest s3

/-- `_deliverInternalRecipients(message)`. -/
def deliverInternalRecipients (parser : String → List RawAddr) (isEmail : String → Bool)
    (msg : Msg) (s : Svc) : Option String × Svc :=
  deliverLoop msg (parseAddresses parser isEmail msg.toAddr) s

/-- `sendMessage(userId, {to, subject, body})`.  `relayOk` models whether
`transport.sendMail` resolves; `appendSent` is the opaque
`_appendSentViaImap` branch used for protocol-backed senders. -/
def sendMessage (parser : String → List RawAddr) (isEmail : String → Bool)
    (appendSent : UserR → Msg → Svc → Msg × Svc) (relayOk : Bool)
    (s : Svc) (uid : Nat) (p : DraftPayload) : Except String Msg × Svc :=
  match alookup s.userIndex uid with
  | none => (.error "user not found", s)
  | some user =>
    if jsTrim p.toAddr = "" then (.error "to is required", s)
    else if jsTrim p.subject = "" then (.error "subject is required", s)
    else
      let ts := s.now
      let s1 : Svc := { s with now := s.now + 1 }
      match normalizeRecipientList parser isEmail p.toAddr with
      | .error e => (.error e, s1)
      | .ok formattedRecipients =>
        let message : Msg :=
          { id := s1.nextId, fromAddr := user.email, toAddr := formattedRecipients,
            subject := jsTrim p.subject, body := p.body, status := .sent,
            mailbox := "sent", createdAt := ts, updatedAt := ts, sentAt := some ts }
        let s2 : Svc := { s1 with nextId := s1.nextId + 1 }
        if s2.localMail && user.usesLocal && user.localPassword = none then
          (.error "local mail credentials unavailable", s2)
        else if !relayOk then (.error "relay transmission failed", s2)
        else if user.usesImap then
          let pair := appendSent user message s2
          if !pair.2.localMail then
            match deliverInternalRecipients parser isEmail pair.1 pair.2 with
            | (some e, s4) => (.error e, s4)
            | (none, s4) => (.ok pair.1, s4)
          else (.ok pair.1, pair.2)
        else
          match storeMessage s2 uid message with
          | .error e => (.error e, s2)
          | .ok s3 =>
            if !s3.localMail then
              match deliverInternalRecipients parser isEmail message s3 with
              | (some e, s4) => (.error e, s4)
              | (none, s4) => (.ok message, s4)
            else (.ok message, s3)

/-- C3 (amended): in the current service (`part_001`), `sendMessage` performs
the relay transmission before any store mutation, so when the relay fails the
whole store (mailboxes, message indexes, user tables) is unchanged and the
call reports an error.  This holds for every user and payload since every
path up to and including the relay call leaves the store untouched. -/
theorem sendMessage_relay_failure_no_mutation
    (parser : String → List RawAddr) (isEmail : String → Bool)
    (appendSent : UserR → Msg → Svc → Msg × Svc) (s : Svc) (uid : Nat) (p : DraftPayload) :
    ∃ e s', sendMessage parser isEmail appendSent false s uid p = (.error e, s') ∧
      s'.mailboxes = s.mailboxes ∧ s'.messages = s.messages ∧
      s'.users = s.users ∧ s'.userIndex = s.userIndex := by
  cases h1 : alookup s.userIndex uid with
  | none => exact ⟨"user not found", s, by simp [sendMessage, h1], rfl, rfl, rfl, rfl⟩
  | some user =>
    by_cases h2 : jsTrim p.toAddr = ""
    · exact ⟨"to is required", s, by simp [sendMessage, h1, h2], rfl, rfl, rfl, rfl⟩
    · by_cases h3 : jsTrim p.subject = ""
      · exact ⟨"subject is required", s, by simp [sendMessage, h1, h2, h3], rfl, rfl, rfl, rfl⟩
      · cases h4 : normalizeRecipientList parser isEmail p.toAddr with
        | error e =>
          exact ⟨e, { s with now := s.now + 1 },
            by simp [sendMessage, h1, h2, h3, h4], rfl, rfl, rfl, rfl⟩
        | ok formatted =>
          by_cases h5 : s.localMail = true ∧ user.usesLocal = true ∧ user.localPassword = none
          · refine ⟨"local mail credentials unavailable",
              { s with now := s.now + 1, nextId := s.nextId + 1 }, ?_, rfl, rfl, rfl, rfl⟩
            simp [sendMessage, h1, h2, h3, h4, h5.1, h5.2.1, h5.2.2]
          · refine ⟨"relay transmission failed",
              { s with now := s.now + 1, nextId := s.nextId + 1 }, ?_, rfl, rfl, rfl, rfl⟩
            simp only [sendMessage, h1, h2, h3, h4]
            have hcond :
                (s.localMail && user.usesLocal && decide (user.localPassword = none)) = false := by
              by_cases hl : s.localMail = true
              · by_cases hu : user.usesLocal = true
                · by_cases hp : user.localPassword = none
                  · exact absurd ⟨hl, hu, hp⟩ h5
                  · simp [hl, hu, hp]
                · simp [hl, Bool.eq_false_iff.mpr hu]
              · simp [Bool.eq_false_iff.mpr hl]
            simp [hcond]

/-! ## Earlier service variant (`src/unnamed/part_002`, second version):
`sendMessage` stores the sent copy *before* the relay transmission. -/

/-- A user record of the earlier variant (no IMAP / local-mail fields). -/
structure UserV2 where
  id : Nat
  email : String
  name : String
deriving DecidableEq

/-- State of the earlier variant. -/
structure SvcV2 where
  users : List (String × UserV2)
  userIndex : List (Nat × UserV2)
  mailboxes : List (Nat × List (String × List Msg))
  messages : List (Nat × List (Nat × Msg))
  nextId : Nat
  now : Nat

/-- `_storeMessage(userId, message)` of the earlier variant. -/
def storeMessageV2 (s : SvcV2) (uid : Nat) (m : Msg) : Except String SvcV2 :=
  match alookup s.mailboxes uid with
  | none => .error "user not found"
  | some boxes =>
    match alookup boxes m.mailbox with
    | none => .error ("mailbox not found: " ++ m.mailbox)
    | some lst =>
      .ok { s with
              mailboxes := aset s.mailboxes uid (aset boxes m.mailbox (m :: lst))
              messages :=
                aset s.messages uid (aset ((alookup s.messages uid).getD []) m.id m) }

/-- `_deliverInternalRecipients` of the earlier variant (no IMAP skip). -/
def deliverLoopV2 (msg : Msg) : List ParsedAddr → SvcV2 → Option String × SvcV2
  | [], s => (none, s)
  | r :: rest, s =>
    match alookup s.users r.address with
    | none => deliverLoopV2 msg rest s
    | some u =>
      let ts := s.now
      let s1 : SvcV2 := { s with now := s.now + 1 }
      let inboxMessage : Msg :=
        { id := s1.nextId, fromAddr := msg.fromAddr, toAddr := r.address,
          subject := msg.subject, body := msg.body, status := .unread,
          mailbox := "inbox", createdAt := ts, updatedAt := ts, receivedAt := some ts }
      let s2 : SvcV2 := { s1 with nextId := s1.nextId + 1 }
      match storeMessageV2 s2 u.id inboxMessage with
      | .error e => (some e, s2)
      | .ok s3 => deliverLoopV2 msg rest s3

/-- `sendMessage` of the earlier variant: note `_storeMessage` runs before
`transport.sendMail`. -/
def sendMessageV2 (parser : String → List RawAddr) (isEmail : String → Bool) (relayOk : Bool)
    (s : SvcV2) (uid : Nat) (p : DraftPayload) : Except String Msg × SvcV2 :=
  match alookup s.userIndex uid with
  | none => (.error "user not found", s)
  | some user =>
    if jsTrim p.toAddr = "" then (.error "to is required", s)
    else if jsTrim p.subject = "" then (.error "subject is required", s)
    else
      let ts := s.now
      let s1 : SvcV2 := { s with now := s.now + 1 }
      match normalizeRecipientList parser isEmail p.toAddr with
      | .error e => (.error e, s1)
      | .ok formattedRecipients =>
        let message : Msg :=
          { id := s1.nextId, fromAddr := user.email, toAddr := formattedRecipients,
            subject := jsTrim p.subject, body := p.body, status := .sent,
            mailbox := "sent", createdAt := ts, updatedAt := ts, sentAt := some ts }
        let s2 : SvcV2 := { s1 with nextId := s1.nextId + 1 }
        match storeMessageV2 s2 uid message with
        | .error e => (.error e, s2)
        | .ok s3 =>
          if !relayOk then (.error "relay transmission failed", s3)
          else
            match deliverLoopV2 message (parseAddresses parser isEmail message.toAddr) s3 with
            | (some e, s4) => (.error e, s4)
            | (none, s4) => (.ok message, s4)

/-- Concrete single-user state used to evaluate the earlier variant. -/
def v2AliceState : SvcV2 :=
  { users := [("alice@fastmail.test", ⟨1, "alice@fastmail.test", "Alice"⟩)]
    userIndex := [(1, ⟨1, "alice@fastmail.test", "Alice"⟩)]
    mailboxes := [(1, [("inbox", []), ("sent", []), ("archive", [])])]
    messages := [(1, [])]
    nextId := 10
    now := 5 }

/-- The sent mailbox list of user 1 in a `SvcV2` state. -/
def v2SentList (s : SvcV2) : List Msg :=
  (alookup ((alookup s.mailboxes 1).getD []) "sent").getD []

/-- C3 counterexample: in the earlier variant, a failed relay transmission
leaves the freshly stored sent copy visible in the sender's sent mailbox
(length goes from 0 to 1), so the store is not unchanged on error. -/
theorem sendMessageV2_relay_failure_leaves_sent_copy :
    (sendMessageV2 (fun _ => [⟨"", "bob@fastmail.test"⟩]) (fun _ => true) false
        v2AliceState 1 { fromAddr := "", toAddr := "bob@fastmail.test", subject := "Hello" }).1
      = .error "relay transmission failed" ∧
    v2SentList (sendMessageV2 (fun _ => [⟨"", "bob@fastmail.test"⟩]) (fun _ => true) false
        v2AliceState 1 { fromAddr := "", toAddr := "bob@fastmail.test", subject := "Hello" }).2
      ≠ v2SentList v2AliceState ∧
    (v2SentList (sendMessageV2 (fun _ => [⟨"", "bob@fastmail.test"⟩]) (fun _ => true) false
        v2AliceState 1 { fromAddr := "", toAddr := "bob@fastmail.test", subject := "Hello" }).2).length
      = 1 ∧
    (v2SentList v2AliceState).length = 0 := by
  refine ⟨rfl, ?_, rfl, rfl⟩
  intro h
  have : (v2SentList v2AliceState).length = 1 := by rw [← h]; rfl
  simp [v2SentList, v2AliceState, alookup] at this

/-- Characterization of the in-memory `markRead` when the message is present
and its mailbox exists: the updated copy replaces the message at the index
found in the mailbox list, and the flat index is updated. -/
theorem markRead_eq (imapMark : UserR → Nat → Svc → Except String Msg × Svc)
    (s : Svc) (uid mid : Nat) (user : UserR) (idx : List (Nat × Msg)) (m : Msg)
    (boxes : List (String × List Msg)) (lst : List Msg) (i : Nat)
    (h1 : alookup s.userIndex uid = some user) (h2 : user.usesImap = false)
    (h3 : alookup s.messages uid = some idx) (h4 : alookup idx mid = some m)
    (h5 : alookup s.mailboxes uid = some boxes) (h6 : alookup boxes m.mailbox = some lst)
    (h7 : lst.findIdx? (fun item => item.id = mid) = some i) :
    markRead imapMark s uid mid =
      (.ok { m with status := .read, updatedAt := s.now },
        { s with
            now := s.now + 1
            mailboxes := aset s.mailboxes uid
              (aset boxes m.mailbox (lst.set i { m with status := .read, updatedAt := s.now }))
            messages := aset s.messages uid
              (aset idx mid { m with status := .read, updatedAt := s.now }) }) := by
  simp [markRead, getMessageInMem, h1, h2, h3, h4, h5, h6, h7]

theorem findIdx?_set_of_found {α : Type} (p : α → Bool) :
    ∀ (lst : List α) (i : Nat), lst.findIdx? p = some i →
      ∀ a, p a = true → (lst.set i a).findIdx? p = some i := by
  intro lst
  induction lst with
  | nil => intro i h; simp [List.findIdx?] at h
  | cons x rest ih =>
    intro i h a ha
    rcases i with _ | j
    · simp [List.findIdx?_cons, ha]
    · rw [List.findIdx?_cons, List.findIdx?_succ] at h
      by_cases hx : p x
      · simp [hx] at h
      · simp only [hx, Bool.false_eq_true, reduceIte, Option.map_eq_some'] at h
        obtain ⟨k, hk, hkeq⟩ := h
        have hkj : k = j := by omega
        subst hkj
        simp [List.set_cons_succ, List.findIdx?_cons, List.findIdx?_succ, hx, ih k hk a ha]

/-- C10: for an in-memory-backed user and a message present in the store (and
present in its mailbox list at the index found by `findIndex`), `markRead`
replaces the message at its original index — the list keeps its length and
every other position — and leaves every other mailbox, every other message,
every other user's state, and the user tables unchanged. -/
theorem markRead_frame (imapMark : UserR → Nat → Svc → Except String Msg × Svc)
    (s : Svc) (uid mid : Nat) (user : UserR) (idx : List (Nat × Msg)) (m : Msg)
    (boxes : List (String × List Msg)) (lst : List Msg) (i : Nat)
    (h1 : alookup s.userIndex uid = some user) (h2 : user.usesImap = false)
    (h3 : alookup s.messages uid = some idx) (h4 : alookup idx mid = some m)
    (h5 : alookup s.mailboxes uid = some boxes) (h6 : alookup boxes m.mailbox = some lst)
    (h7 : lst.findIdx? (fun item => item.id = mid) = some i) :
    ∃ u s', markRead imapMark s uid mid = (.ok u, s') ∧
      u = { m with status := .read, updatedAt := s.now } ∧
      alookup s'.mailboxes uid = some (aset boxes m.mailbox (lst.set i u)) ∧
      (lst.set i u).length = lst.length ∧
      (lst.set i u)[i]? = some u ∧
      (∀ j, j ≠ i → (lst.set i u)[j]? = lst[j]?) ∧
      (∀ name, name ≠ m.mailbox →
        alookup (aset boxes m.mailbox (lst.set i u)) name = alookup boxes name) ∧
      alookup s'.messages uid = some (aset idx mid u) ∧
      (∀ mid', mid' ≠ mid → alookup (aset idx mid u) mid' = alookup idx mid') ∧
      (∀ uid', uid' ≠ uid → alookup s'.mailboxes uid' = alookup s.mailboxes uid' ∧
        alookup s'.messages uid' = alookup s.messages uid') ∧
      s'.users = s.users ∧ s'.userIndex = s.userIndex := by
  have hlt : i < lst.length :=
    (List.findIdx?_eq_some_iff_findIdx_eq.mp h7).1
  refine ⟨_, _, markRead_eq imapMark s uid mid user idx m boxes lst i
    h1 h2 h3 h4 h5 h6 h7, rfl, ?_, by simp, ?_, ?_, ?_, ?_, ?_, ?_, rfl, rfl⟩
  · exact alookup_aset_self _ _ _
  · simp [List.getElem?_set_self', List.getElem?_eq_getElem, hlt]
  · intro j hj
    exact List.getElem?_set_ne (Ne.symm hj)
  · intro name hname
    exact alookup_aset_ne _ _ (Ne.symm hname)
  · exact alookup_aset_self _ _ _
  · intro mid' hmid
    exact alookup_aset_ne _ _ (Ne.symm hmid)
  · intro uid' huid
    exact ⟨alookup_aset_ne _ _ (Ne.symm huid), alookup_aset_ne _ _ (Ne.symm huid)⟩

/-- C5: in-memory `markRead` is idempotent.  For a message present in the
store (well-formed: indexed under its own id, mailbox present, found in the
mailbox list), both calls succeed and return `status=read`, and the second
call produces the same store as the first except that the message record's
`updatedAt` is refreshed to the later clock value. -/
theorem markRead_idempotent (imapMark : UserR → Nat → Svc → Except String Msg × Svc)
    (s : Svc) (uid mid : Nat) (user : UserR) (idx : List (Nat × Msg)) (m : Msg)
    (boxes : List (String × List Msg)) (lst : List Msg) (i : Nat)
    (h1 : alookup s.userIndex uid = some user) (h2 : user.usesImap = false)
    (h3 : alookup s.messages uid = some idx) (h4 : alookup idx mid = some m)
    (h5 : alookup s.mailboxes uid = some boxes) (h6 : alookup boxes m.mailbox = some lst)
    (h7 : lst.findIdx? (fun item => item.id = mid) = some i)
    (hm : m.id = mid) :
    ∃ m1 s1 m2 s2,
      markRead imapMark s uid mid = (.ok m1, s1) ∧
      markRead imapMark s1 uid mid = (.ok m2, s2) ∧
      m1.status = .read ∧ m2.status = .read ∧
      m2 = { m1 with updatedAt := s1.now } ∧
      s1.mailboxes = aset s.mailboxes uid (aset boxes m.mailbox (lst.set i m1)) ∧
      s2.mailboxes = aset s.mailboxes uid (aset boxes m.mailbox (lst.set i m2)) ∧
      s1.messages = aset s.messages uid (aset idx mid m1) ∧
      s2.messages = aset s.messages uid (aset idx mid m2) ∧
      s2.users = s.users ∧ s2.userIndex = s.userIndex ∧ s2.now = s1.now + 1 := by
  have e1 := markRead_eq imapMark s uid mid user idx m boxes lst i h1 h2 h3 h4 h5 h6 h7
  have hp : (fun item => decide (item.id = mid)) ({ m with status := .read, updatedAt := s.now }) = true := by
    simp [hm]
  have h7' := findIdx?_set_of_found (fun item => decide (item.id = mid)) lst i h7
    ({ m with status := .read, updatedAt := s.now }) hp
  have e2 := markRead_eq imapMark
    ({ s with
        now := s.now + 1
        mailboxes := aset s.mailboxes uid
          (aset boxes m.mailbox (lst.set i { m with status := .read, updatedAt := s.now }))
        messages := aset s.messages uid
          (aset idx mid { m with status := .read, updatedAt := s.now }) })
    uid mid user (aset idx mid { m with status := .read, updatedAt := s.now })
    ({ m with status := .read, updatedAt := s.now })
    (aset boxes m.mailbox (lst.set i { m with status := .read, updatedAt := s.now }))
    (lst.set i { m with status := .read, updatedAt := s.now }) i
    h1 h2 (alookup_aset_self _ _ _) (alookup_aset_self _ _ _)
    (alookup_aset_self _ _ _) (alookup_aset_self _ _ _) h7'
  refine ⟨_, _, _, _, e1, e2, rfl, rfl, rfl, rfl, ?_, rfl, ?_, rfl, rfl, rfl⟩
  · simp [aset_aset, List.set_set]
  · simp [aset_aset]

/-- A concrete unread message used by witnesses. -/
def demoMsg : Msg :=
  { id := 7, fromAddr := "alice@fastmail.test", toAddr := "bob@fastmail.test",
    subject := "Hello", body := "B", status := .unread, mailbox := "inbox",
    createdAt := 3, updatedAt := 3, receivedAt := some 3 }

/-- A concrete in-memory-backed user used by witnesses. -/
def bobUser : UserR := { id := 2, email := "bob@fastmail.test", name := "Bob", usesImap := false }

/-- A second concrete in-memory-backed user used by witnesses. -/
def aliceUser : UserR :=
  { id := 1, email := "alice@fastmail.test", name := "Alice", usesImap := false }

/-- A concrete two-user service state used by witnesses. -/
def demoSvc : Svc :=
  { users := [("alice@fastmail.test", aliceUser), ("bob@fastmail.test", bobUser)]
    userIndex := [(1, aliceUser), (2, bobUser)]
    mailboxes := [(1, [("inbox", []), ("sent", []), ("archive", [])]),
                  (2, [("inbox", [demoMsg]), ("sent", []), ("archive", [])])]
    messages := [(1, []), (2, [(7, demoMsg)])]
    localMail := false
    nextId := 10
    now := 5 }

/-- Witness for `markRead_idempotent` on `demoSvc`. -/
theorem markRead_idempotent_witness :
    ∃ m1 s1 m2 s2,
      markRead (fun _ _ st => (.error "imap", st)) demoSvc 2 7 = (.ok m1, s1) ∧
      markRead (fun _ _ st => (.error "imap", st)) s1 2 7 = (.ok m2, s2) ∧
      m1.status = .read ∧ m2.status = .read ∧
      m2 = { m1 with updatedAt := s1.now } ∧
      s2.users = demoSvc.users ∧ s2.userIndex = demoSvc.userIndex ∧ s2.now = s1.now + 1 := by
  obtain ⟨m1, s1, m2, s2, r1, r2, st1, st2, hup, _, _, _, _, hu, hui, hnow⟩ :=
    markRead_idempotent (fun _ _ st => (.error "imap", st)) demoSvc 2 7 bobUser
      [(7, demoMsg)] demoMsg [("inbox", [demoMsg]), ("sent", []), ("archive", [])]
      [demoMsg] 0 rfl rfl rfl rfl rfl rfl rfl rfl
  exact ⟨m1, s1, m2, s2, r1, r2, st1, st2, hup, hu, hui, hnow⟩

/-- Witness for `markRead_frame` on `demoSvc`. -/
theorem markRead_frame_witness :
    ∃ u s', markRead (fun _ _ st => (.error "imap", st)) demoSvc 2 7 = (.ok u, s') ∧
      u = { demoMsg with status := .read, updatedAt := demoSvc.now } ∧
      alookup s'.mailboxes 2 =
        some (aset [("inbox", [demoMsg]), ("sent", []), ("archive", [])] "inbox"
          ([demoMsg].set 0 u)) ∧
      ([demoMsg].set 0 u).length = [demoMsg].length ∧
      (∀ uid', uid' ≠ 2 → alookup s'.mailboxes uid' = alookup demoSvc.mailboxes uid' ∧
        alookup s'.messages uid' = alookup demoSvc.messages uid') := by
  obtain ⟨u, s', hrun, hu, hbox, hlen, _, _, _, _, _, hframe, _, _⟩ :=
    markRead_frame (fun _ _ st => (.error "imap", st)) demoSvc 2 7 bobUser
      [(7, demoMsg)] demoMsg [("inbox", [demoMsg]), ("sent", []), ("archive", [])]
      [demoMsg] 0 rfl rfl rfl rfl rfl rfl rfl
  exact ⟨u, s', hrun, hu, hbox, hlen, hframe⟩

/-! ## Protocol (IMAP) adapter model

The remote server is modelled as a list of mailboxes holding messages in
sequence order (position `k` holds sequence number `k+1`).  The client
operations (`list`, `status`, `mailboxOpen`, `fetch`, `fetchOne`) are given
their standard semantics against that state; `status` reports the true
counts (per-mailbox status failures are a transport fault, not a store
state).  The third component of the adapter results counts protocol
sessions opened (`_withImap` invocations). -/

/-- An envelope address (`{name, address}`). -/
structure RAddr where
  name : String
  address : String
deriving DecidableEq

/-- A remote message: provider uid (`0` models a falsy/absent uid), envelope
data (`""`/`none` model absent fields), flags, internal date, and the body
text that `simpleParser` extracts from the raw source
(`parsed.text || parsed.html || ''`). -/
structure RMsg where
  uid : Nat
  envFrom : List RAddr
  envTo : List RAddr
  envSubject : String
  envDate : Option Nat
  flags : List String
  internalDate : Option Nat
  bodyText : String
deriving DecidableEq

/-- A remote mailbox: path, flags and messages in sequence order. -/
structure RMailbox where
  path : String
  flags : List String
  msgs : List RMsg
deriving DecidableEq

/-- The remote server state. -/
abbrev Remote := List RMailbox

/-- Opening a mailbox: `some` with its content if the path exists. -/
def findRBox (remote : Remote) (name : String) : Option RMailbox :=
  remote.find? (fun mb => mb.path = name)

/-- `hasFlag(flags, flag)`: case-insensitive membership. -/
def hasFlag (flags : List String) (flag : String) : Bool :=
  flags.any (fun item => jsToLower item = jsToLower flag)

/-- `hasSeenFlag(flags)`. -/
def hasSeenFlag (flags : List String) : Bool :=
  hasFlag flags "\\Seen"

/-- The `unseen` count reported by `client.status`. -/
def unseenCount (msgs : List RMsg) : Nat :=
  (msgs.filter (fun m => !hasSeenFlag m.flags)).length

/-- `formatAddressList(addresses)`. -/
def formatAddressList (addresses : List RAddr) : String :=
  String.intercalate ", "
    ((addresses.map (fun entry =>
      if entry.address = "" then ""
      else if entry.name ≠ "" then entry.name ++ " <" ++ entry.address ++ ">"
      else entry.address)).filter (fun t => t ≠ ""))

/-- `_imapMessageToDto(mailbox, message)` given the id chosen for it
(`String(message.uid)` when the uid is truthy, a fresh id otherwise). -/
def imapMessageToDto (now : Nat) (mailbox : String) (m : RMsg) (idv : Nat) : Msg :=
  let created := (m.internalDate.orElse (fun _ => m.envDate)).getD now
  { id := idv
    fromAddr := formatAddressList m.envFrom
    toAddr := formatAddressList m.envTo
    subject := if m.envSubject ≠ "" then m.envSubject else "(no subject)"
    body := ""
    status := if hasSeenFlag m.flags then .read else .unread
    mailbox := mailbox
    createdAt := created
    updatedAt := created }

/-- Map fetched messages to DTOs, consuming a fresh id for each falsy uid. -/
def dtoList (now : Nat) (mailbox : String) : List RMsg → Nat → List Msg × Nat
  | [], nid => ([], nid)
  | m :: rest, nid =>
    if m.uid ≠ 0 then
      let p := dtoList now mailbox rest nid
      (imapMessageToDto now mailbox m m.uid :: p.1, p.2)
    else
      let p := dtoList now mailbox rest (nid + 1)
      (imapMessageToDto now mailbox m nid :: p.1, p.2)

/-- The comparator `new Date(b.createdAt) - new Date(a.createdAt)`
(newest first), as an ordering relation. -/
def newerFirst (a b : Msg) : Prop :=
  b.createdAt ≤ a.createdAt

instance : DecidableRel newerFirst := fun a b => by
  unfold newerFirst; infer_instance

instance : IsTotal Msg newerFirst :=
  ⟨fun a b => (Nat.le_total b.createdAt a.createdAt).imp (fun h => h) (fun h => h)⟩

instance : IsTrans Msg newerFirst :=
  ⟨fun _ _ _ h1 h2 => Nat.le_trans h2 h1⟩

/-- `_listImapMessages(user, mailbox)` over the remote state: returns the
message list, the updated per-user cache, and the next fresh id. -/
def listImapMessages (now nid : Nat) (cache : List (Nat × Msg)) (remote : Remote)
    (mailbox : String) : List Msg × List (Nat × Msg) × Nat :=
  match findRBox remote mailbox with
  | none => ([], cache, nid)
  | some mb =>
    if mb.msgs.length = 0 then ([], cache, nid)
    else
      let startSeq := max 1 (mb.msgs.length - 49)
      let fetched := mb.msgs.drop (startSeq - 1)
      let p := dtoList now mailbox fetched nid
      let cache' := p.1.foldl (fun c d => aset c d.id d) cache
      (List.insertionSort newerFirst p.1, cache', p.2)

/-- `_listImapMailboxes(user)` over the remote state: skip `\Noselect`
mailboxes, report status counts, sort by priority then name. -/
def listImapMailboxes (remote : Remote) : List MailboxInfo :=
  List.insertionSort mailboxLE
    ((remote.filter (fun mb => !hasFlag mb.flags "\\Noselect")).map
      (fun mb => { name := mb.path, total := mb.msgs.length, unread := unseenCount mb.msgs }))

/-- `_getImapMessage(user, messageId)` over the remote state: returns the
result, the updated cache, and the number of protocol sessions opened. -/
def getImapMessage (now : Nat) (cache : List (Nat × Msg)) (remote : Remote)
    (messageId : Nat) : Except String Msg × List (Nat × Msg) × Nat :=
  match alookup cache messageId with
  | none => (.error "message not found", cache, 0)
  | some cached =>
    if cached.body ≠ "" then (.ok cached, cache, 0)
    else
      match (findRBox remote cached.mailbox).bind
          (fun mb => mb.msgs.find? (fun m => m.uid = messageId)) with
      | none => (.error "message not found", cache, 1)
      | some fetched =>
        let created := (fetched.internalDate.orElse (fun _ => fetched.envDate)).getD now
        let updated : Msg :=
          { cached with
              fromAddr :=
                if formatAddressList fetched.envFrom ≠ "" then formatAddressList fetched.envFrom
                else cached.fromAddr
              toAddr :=
                if formatAddressList fetched.envTo ≠ "" then formatAddressList fetched.envTo
                else cached.toAddr
              subject := if fetched.envSubject ≠ "" then fetched.envSubject else cached.subject
              body := fetched.bodyText
              status := if hasSeenFlag fetched.flags then .read else .unread
              updatedAt := created }
        (.ok updated, aset cache messageId updated, 1)

/-- C9: for a protocol-backed user, `getMessage` with an id absent from the
per-user cache fails with `NotFoundError` immediately and opens no protocol
session; a cached message with a populated body is returned without any
session; and a session is opened only when the id is cached with an empty
body. -/
theorem getImapMessage_cache_discipline :
    (∀ now cache remote mid, alookup cache mid = none →
      getImapMessage now cache remote mid = (.error "message not found", cache, 0)) ∧
    (∀ now cache remote mid cached, alookup cache mid = some cached → cached.body ≠ "" →
      getImapMessage now cache remote mid = (.ok cached, cache, 0)) ∧
    (∀ now cache remote mid, (getImapMessage now cache remote mid).2.2 ≠ 0 →
      ∃ cached, alookup cache mid = some cached ∧ cached.body = "") := by
  refine ⟨?_, ?_, ?_⟩
  · intro now cache remote mid h
    simp [getImapMessage, h]
  · intro now cache remote mid cached h hbody
    simp [getImapMessage, h, hbody]
  · intro now cache remote mid h
    cases hc : alookup cache mid with
    | none => simp [getImapMessage, hc] at h
    | some cached =>
      by_cases hbody : cached.body = ""
      · exact ⟨cached, rfl, hbody⟩
      · simp [getImapMessage, hc, hbody] at h

/-- Witness for `getImapMessage_cache_discipline`: a cache miss opens no
session, and a cached body-populated message is returned from the cache. -/
theorem getImapMessage_cache_discipline_witness :
    getImapMessage 0 [] [] 5 = (.error "message not found", [], 0) ∧
    getImapMessage 0 [(7, demoMsg)] [] 7 = (.ok demoMsg, [(7, demoMsg)], 0) :=
  ⟨getImapMessage_cache_discipline.1 0 [] [] 5 rfl,
    getImapMessage_cache_discipline.2.1 0 [(7, demoMsg)] [] 7 demoMsg rfl (by decide)⟩

/-- C6: every entry returned by `listMailboxes` has `total` equal to the
length of that mailbox's message list and `unread` equal to the number of its
messages with `status=unread` — for the in-memory backend (counts computed
from the per-user lists) and for the protocol backend (counts reported by
`status` against the remote mailbox contents, `unread` counting messages
without a seen flag). -/
theorem listMailboxes_counts :
    (∀ (localList : String → List MailboxInfo)
        (imapList : UserR → Svc → Except String (List MailboxInfo))
        (s : Svc) (uid : Nat) (user : UserR) (boxes : List (String × List Msg))
        (res : List MailboxInfo) (e : MailboxInfo),
      alookup s.userIndex uid = some user →
      (s.localMail && user.usesLocal) = false → user.usesImap = false →
      alookup s.mailboxes uid = some boxes →
      listMailboxes localList imapList s uid = .ok res → e ∈ res →
      ∃ name lst, (name, lst) ∈ boxes ∧ e.name = name ∧ e.total = lst.length ∧
        e.unread = (lst.filter (fun m => m.status = .unread)).length) ∧
    (∀ (remote : Remote) (e : MailboxInfo), e ∈ listImapMailboxes remote →
      ∃ mb, mb ∈ remote ∧ e.name = mb.path ∧ e.total = mb.msgs.length ∧
        e.unread = unseenCount mb.msgs) := by
  constructor
  · intro localList imapList s uid user boxes res e h1 h2 h3 h4 hres hmem
    have hres' : res = boxes.map (fun nb =>
        ({ name := nb.1, total := nb.2.length
           unread := (nb.2.filter (fun m => m.status = .unread)).length } : MailboxInfo)) := by
      simp [listMailboxes, h1, h2, h3, h4] at hres
      exact hres.symm
    subst hres'
    obtain ⟨⟨name, lst⟩, hnb, he⟩ := List.mem_map.mp hmem
    exact ⟨name, lst, hnb, by rw [← he], by rw [← he], by rw [← he]⟩
  · intro remote e hmem
    rw [listImapMailboxes, List.mem_insertionSort] at hmem
    obtain ⟨mb, hmb, he⟩ := List.mem_map.mp hmem
    exact ⟨mb, (List.mem_filter.mp hmb).1, by rw [← he], by rw [← he], by rw [← he]⟩

/-- Witness for `listMailboxes_counts` on `demoSvc` and a one-mailbox remote
state. -/
theorem listMailboxes_counts_witness :
    (∃ name lst,
      (name, lst) ∈ [("inbox", [demoMsg]), ("sent", []), ("archive", [])] ∧
      (⟨"inbox", 1, 1⟩ : MailboxInfo).name = name ∧
      (⟨"inbox", 1, 1⟩ : MailboxInfo).total = lst.length ∧
      (⟨"inbox", 1, 1⟩ : MailboxInfo).unread =
        (lst.filter (fun m => m.status = .unread)).length) ∧
    (∃ mb, mb ∈ ([⟨"INBOX", [], [⟨101, [⟨"Remote Friend", "friend@example.com"⟩],
          [⟨"Carol", "carol@fastmail.test"⟩], "Hello from the outside", some 900, [],
          some 900, "Checking in via IMAP!"⟩]⟩] : Remote) ∧
      (⟨"INBOX", 1, 1⟩ : MailboxInfo).name = mb.path ∧
      (⟨"INBOX", 1, 1⟩ : MailboxInfo).total = mb.msgs.length ∧
      (⟨"INBOX", 1, 1⟩ : MailboxInfo).unread = unseenCount mb.msgs) :=
  ⟨listMailboxes_counts.1 (fun _ => []) (fun _ st => (.error "imap")) demoSvc 2 bobUser
      [("inbox", [demoMsg]), ("sent", []), ("archive", [])]
      ((listMailboxes (fun _ => []) (fun _ _ => (.error "imap")) demoSvc 2).toOption.getD [])
      ⟨"inbox", 1, 1⟩ rfl rfl rfl rfl rfl (by decide),
    listMailboxes_counts.2 _ ⟨"INBOX", 1, 1⟩ (by decide)⟩

theorem dtoList_of_uids_nonzero (now : Nat) (mailbox : String) :
    ∀ (msgs : List RMsg) (nid : Nat), (∀ m ∈ msgs, m.uid ≠ 0) →
      dtoList now mailbox msgs nid =
        (msgs.map (fun m => imapMessageToDto now mailbox m m.uid), nid) := by
  intro msgs
  induction msgs with
  | nil => intro nid _; simp [dtoList]
  | cons m rest ih =>
    intro nid h
    have hm : m.uid ≠ 0 := h m (List.mem_cons_self m rest)
    simp [dtoList, hm, ih nid (fun x hx => h x (List.mem_cons_of_mem m hx))]

theorem alookup_foldl_aset_of_ne (k : Nat) :
    ∀ (ds : List Msg) (c : List (Nat × Msg)), (∀ d ∈ ds, d.id ≠ k) →
      alookup (ds.foldl (fun c d => aset c d.id d) c) k = alookup c k := by
  intro ds
  induction ds with
  | nil => intro c _; rfl
  | cons d rest ih =>
    intro c h
    have hd : d.id ≠ k := h d (List.mem_cons_self d rest)
    rw [List.foldl_cons, ih (aset c d.id d) (fun x hx => h x (List.mem_cons_of_mem d hx)),
      alookup_aset_ne _ _ hd]

theorem alookup_foldl_aset_self :
    ∀ (ds : List Msg) (c : List (Nat × Msg)), (ds.map (fun d => d.id)).Nodup →
      ∀ d ∈ ds, alookup (ds.foldl (fun c d => aset c d.id d) c) d.id = some d := by
  intro ds
  induction ds with
  | nil => intro c _ d hd; simp at hd
  | cons d0 rest ih =>
    intro c hnd d hd
    have hnd' : (rest.map (fun d => d.id)).Nodup := (List.nodup_cons.mp hnd).2
    have hnotin : d0.id ∉ rest.map (fun d => d.id) := (List.nodup_cons.mp hnd).1
    rcases List.mem_cons.mp hd with h0 | hrest
    · subst h0
      rw [List.foldl_cons,
        alookup_foldl_aset_of_ne d.id rest (aset c d.id d) ?hne, alookup_aset_self]
      intro x hx hcontra
      exact hnotin (hcontra ▸ List.mem_map_of_mem (fun d => d.id) hx)
    · exact List.foldl_cons _ _ ▸ ih (aset c d0.id d0) hnd' d hrest

/-- C8: for a protocol-backed user, `listMessages` on a mailbox that does not
exist or is empty returns the empty list (cache untouched); otherwise it
fetches exactly the last `min n 50` messages by sequence position, caches
each fetched message by id, and returns them sorted newest-first by
`createdAt`. -/
theorem listImapMessages_spec :
    (∀ now nid cache remote name, findRBox remote name = none →
      listImapMessages now nid cache remote name = ([], cache, nid)) ∧
    (∀ now nid cache remote name mb, findRBox remote name = some mb → mb.msgs = [] →
      listImapMessages now nid cache remote name = ([], cache, nid)) ∧
    (∀ now nid cache remote name mb, findRBox remote name = some mb → mb.msgs ≠ [] →
      (∀ m ∈ mb.msgs, m.uid ≠ 0) →
      (listImapMessages now nid cache remote name).1.length = min mb.msgs.length 50 ∧
      (listImapMessages now nid cache remote name).1.Perm
        ((mb.msgs.drop (mb.msgs.length - min mb.msgs.length 50)).map
          (fun m => imapMessageToDto now name m m.uid)) ∧
      List.Pairwise (fun a b => b.createdAt ≤ a.createdAt)
        (listImapMessages now nid cache remote name).1 ∧
      (listImapMessages now nid cache remote name).2.2 = nid ∧
      ((mb.msgs.map (fun m => m.uid)).Nodup →
        ∀ m ∈ mb.msgs.drop (mb.msgs.length - min mb.msgs.length 50),
          alookup (listImapMessages now nid cache remote name).2.1 m.uid =
            some (imapMessageToDto now name m m.uid))) := by
  refine ⟨?_, ?_, ?_⟩
  · intro now nid cache remote name h
    simp [listImapMessages, h]
  · intro now nid cache remote name mb hfind hempty
    simp [listImapMessages, hfind, hempty]
  · intro now nid cache remote name mb hfind hne huid
    have hlen0 : ¬ mb.msgs.length = 0 := by simpa using hne
    have hdrop : max 1 (mb.msgs.length - 49) - 1 = mb.msgs.length - min mb.msgs.length 50 := by
      omega
    have hfetch : ∀ m ∈ mb.msgs.drop (mb.msgs.length - min mb.msgs.length 50), m.uid ≠ 0 :=
      fun m hm => huid m (List.mem_of_mem_drop hm)
    have hkey : listImapMessages now nid cache remote name =
        (List.insertionSort newerFirst
            ((mb.msgs.drop (mb.msgs.length - min mb.msgs.length 50)).map
              (fun m => imapMessageToDto now name m m.uid)),
          ((mb.msgs.drop (mb.msgs.length - min mb.msgs.length 50)).map
              (fun m => imapMessageToDto now name m m.uid)).foldl
            (fun c d => aset c d.id d) cache,
          nid) := by
      rw [listImapMessages, hfind]
      simp only [hlen0, reduceIte, hdrop,
        dtoList_of_uids_nonzero now name _ nid hfetch]
    rw [hkey]
    have hdlen : ((mb.msgs.drop (mb.msgs.length - min mb.msgs.length 50)).map
        (fun m => imapMessageToDto now name m m.uid)).length = min mb.msgs.length 50 := by
      simp
      omega
    refine ⟨?_, ?_, ?_, rfl, ?_⟩
    · rw [(List.perm_insertionSort newerFirst _).length_eq, hdlen]
    · exact List.perm_insertionSort newerFirst _
    · have hs := List.sorted_insertionSort newerFirst
        ((mb.msgs.drop (mb.msgs.length - min mb.msgs.length 50)).map
          (fun m => imapMessageToDto now name m m.uid))
      simpa [List.Sorted, newerFirst] using hs
    · intro hnodup m hm
      have hids : (((mb.msgs.drop (mb.msgs.length - min mb.msgs.length 50)).map
          (fun m => imapMessageToDto now name m m.uid)).map (fun d => d.id)).Nodup := by
        rw [List.map_map]
        have hnd : ((mb.msgs.drop (mb.msgs.length - min mb.msgs.length 50)).map
            (fun m => m.uid)).Nodup := by
          rw [List.map_drop]
          exact List.Nodup.sublist (List.drop_sublist _ _) hnodup
        simpa [Function.comp] using hnd
      have hmem : imapMessageToDto now name m m.uid ∈
          (mb.msgs.drop (mb.msgs.length - min mb.msgs.length 50)).map
            (fun m => imapMessageToDto now name m m.uid) :=
        List.mem_map_of_mem _ hm
      exact alookup_foldl_aset_self _ cache hids _ hmem

/-- A concrete remote state with one two-message mailbox, used by witnesses. -/
def demoRemote : Remote :=
  [⟨"INBOX", [],
    [⟨101, [⟨"Remote Friend", "friend@example.com"⟩], [⟨"", "carol@fastmail.test"⟩],
      "Hello from the outside", some 100, [], some 100, "Checking in!"⟩,
     ⟨102, [], [], "", none, ["\\Seen"], some 200, "second"⟩]⟩]

/-- Witness for `listImapMessages_spec` on `demoRemote`. -/
theorem listImapMessages_spec_witness :
    (listImapMessages 0 0 [] demoRemote "INBOX").1.length = min 2 50 ∧
    List.Pairwise (fun a b => b.createdAt ≤ a.createdAt)
      (listImapMessages 0 0 [] demoRemote "INBOX").1 ∧
    (listImapMessages 0 0 [] demoRemote "INBOX").2.2 = 0 := by
  obtain ⟨hlen, _, hsort, hnid, _⟩ :=
    listImapMessages_spec.2.2 0 0 [] demoRemote "INBOX"
      ⟨"INBOX", [],
        [⟨101, [⟨"Remote Friend", "friend@example.com"⟩], [⟨"", "carol@fastmail.test"⟩],
          "Hello from the outside", some 100, [], some 100, "Checking in!"⟩,
         ⟨102, [], [], "", none, ["\\Seen"], some 200, "second"⟩]⟩
      rfl (by decide) (by decide)
  exact ⟨by simpa using hlen, hsort, hnid⟩

/-- The inbox list of a user, when the user and the `inbox` mailbox exist. -/
def inboxOf (s : Svc) (uid : Nat) : Option (List Msg) :=
  (alookup s.mailboxes uid).bind (fun bx => alookup bx "inbox")

theorem storeMessage_inbox (s : Svc) (uid : Nat) (m : Msg) (l : List Msg)
    (hm : m.mailbox = "inbox") (hin : inboxOf s uid = some l) :
    ∃ s', storeMessage s uid m = .ok s' ∧
      inboxOf s' uid = some (m :: l) ∧
      (∀ uid', uid' ≠ uid → inboxOf s' uid' = inboxOf s uid') ∧
      s'.users = s.users ∧ s'.userIndex = s.userIndex ∧
      s'.nextId = s.nextId ∧ s'.now = s.now ∧ s'.localMail = s.localMail := by
  unfold inboxOf at hin
  cases hbx : alookup s.mailboxes uid with
  | none => rw [hbx] at hin; simp at hin
  | some bx =>
    rw [hbx] at hin
    simp only [Option.some_bind] at hin
    refine ⟨{ s with
        mailboxes := aset s.mailboxes uid (aset bx "inbox" (m :: l))
        messages := aset s.messages uid (aset ((alookup s.messages uid).getD []) m.id m) },
      ?_, ?_, ?_, rfl, rfl, rfl, rfl, rfl⟩
    · simp [storeMessage, hbx, hm, hin]
    · unfold inboxOf
      simp [alookup_aset_self]
    · intro uid' h
      unfold inboxOf
      rw [alookup_aset_ne _ _ (Ne.symm h)]

theorem deliverLoop_skip_all (msg : Msg) :
    ∀ (recips : List ParsedAddr) (s : Svc),
      (∀ r ∈ recips, alookup s.users r.address = none ∨
        ∃ u, alookup s.users r.address = some u ∧ u.usesImap = true) →
      deliverLoop msg recips s = (none, s) := by
  intro recips
  induction recips with
  | nil => intro s _; rfl
  | cons r rest ih =>
    intro s h
    rcases h r (List.mem_cons_self r rest) with hn | ⟨u, hu, himp⟩
    · simp [deliverLoop, hn, ih s (fun x hx => h x (List.mem_cons_of_mem r hx))]
    · simp [deliverLoop, hu, himp, ih s (fun x hx => h x (List.mem_cons_of_mem r hx))]

/-- The fresh unread inbox copy built for a recipient inside
`_deliverInternalRecipients` (abbreviation for the record in `deliverLoop`). -/
def inboxCopy (msg : Msg) (addr : String) (s : Svc) : Msg :=
  { id := s.nextId, fromAddr := msg.fromAddr, toAddr := addr, subject := msg.subject,
    body := msg.body, status := .unread, mailbox := "inbox",
    createdAt := s.now, updatedAt := s.now, receivedAt := some s.now }

theorem deliverLoop_spec (msg : Msg) (e : String) (u0 : UserR)
    (himap : u0.usesImap = false) :
    ∀ (recips : List ParsedAddr) (s : Svc) (inb0 : List Msg),
      alookup s.users e = some u0 →
      inboxOf s u0.id = some inb0 →
      (∀ r ∈ recips, ∀ u', alookup s.users r.address = some u' → u'.usesImap = false →
        inboxOf s u'.id ≠ none) →
      (∀ r ∈ recips, r.address ≠ e → ∀ u', alookup s.users r.address = some u' →
        u'.id ≠ u0.id) →
      ∃ front s',
        deliverLoop msg recips s = (none, s') ∧
        inboxOf s' u0.id = some (front ++ inb0) ∧
        front.length = (recips.filter (fun r => r.address = e)).length ∧
        (∀ c ∈ front, c.status = .unread ∧ c.mailbox = "inbox" ∧ c.toAddr = e ∧
          c.fromAddr = msg.fromAddr ∧ c.subject = msg.subject ∧ c.body = msg.body ∧
          s.nextId ≤ c.id) ∧
        s'.users = s.users ∧ s'.userIndex = s.userIndex ∧ s.nextId ≤ s'.nextId := by
  intro recips
  induction recips with
  | nil =>
    intro s inb0 hu0 hinb _ _
    exact ⟨[], s, rfl, hinb, by simp, by simp, rfl, rfl, Nat.le_refl _⟩
  | cons r rest ih =>
    intro s inb0 hu0 hinb hok hinj
    cases hru : alookup s.users r.address with
    | none =>
      have hre : ¬ r.address = e := by
        intro h; rw [h, hu0] at hru; cases hru
      obtain ⟨front, s', hrun, hin', hlen, hprops, husers, hidx, hnid⟩ :=
        ih s inb0 hu0 hinb
          (fun x hx => hok x (List.mem_cons_of_mem r hx))
          (fun x hx => hinj x (List.mem_cons_of_mem r hx))
      exact ⟨front, s', by simpa [deliverLoop, hru] using hrun, hin',
        by simpa [List.filter_cons, hre] using hlen, hprops, husers, hidx, hnid⟩
    | some u' =>
      by_cases himp : u'.usesImap = true
      · have hre : ¬ r.address = e := by
          intro h
          rw [h, hu0] at hru
          cases hru
          rw [himap] at himp
          cases himp
        obtain ⟨front, s', hrun, hin', hlen, hprops, husers, hidx, hnid⟩ :=
          ih s inb0 hu0 hinb
            (fun x hx => hok x (List.mem_cons_of_mem r hx))
            (fun x hx => hinj x (List.mem_cons_of_mem r hx))
        exact ⟨front, s', by simpa [deliverLoop, hru, himp] using hrun, hin',
          by simpa [List.filter_cons, hre] using hlen, hprops, husers, hidx, hnid⟩
      · have himp' : u'.usesImap = false := by
          simpa using himp
        have hstep : deliverLoop msg (r :: rest) s =
            match storeMessage { s with now := s.now + 1, nextId := s.nextId + 1 } u'.id
                (inboxCopy msg r.address s) with
            | .error err => (some err, { s with now := s.now + 1, nextId := s.nextId + 1 })
            | .ok s3 => deliverLoop msg rest s3 := by
          simp only [deliverLoop, hru, himp', Bool.false_eq_true, reduceIte, inboxCopy]
        by_cases hre : r.address = e
        · -- delivery to the target user
          have hu'eq : u' = u0 := by
            rw [hre] at hru
            rw [hru] at hu0
            exact Option.some_inj.mp hu0
          subst hu'eq
          obtain ⟨s3, hstore, hin3, hframe3, husers3, hidx3, hnid3, _, _⟩ :=
            storeMessage_inbox { s with now := s.now + 1, nextId := s.nextId + 1 } u'.id
              (inboxCopy msg r.address s) inb0 rfl hinb
          obtain ⟨front, s', hrun, hin', hlen, hprops, husers, hidx, hnid⟩ :=
            ih s3 (inboxCopy msg r.address s :: inb0)
              (husers3 ▸ hu0) hin3
              (fun x hx u'' hu'' himp'' => by
                by_cases hid : u''.id = u'.id
                · rw [hid, hin3]; simp
                · rw [hframe3 u''.id hid]
                  exact hok x (List.mem_cons_of_mem r hx) u'' (husers3 ▸ hu'') himp'')
              (fun x hx hxe u'' hu'' =>
                hinj x (List.mem_cons_of_mem r hx) hxe u'' (husers3 ▸ hu''))
          refine ⟨front ++ [inboxCopy msg r.address s], s', ?_, ?_, ?_, ?_, ?_, ?_, ?_⟩
          · rw [hstep, hstore]
            exact hrun
          · rw [hin']
            simp
          · simp [List.filter_cons, hre, hlen, Nat.add_comm]
          · intro c hc
            rcases List.mem_append.mp hc with hcf | hcl
            · obtain ⟨p1, p2, p3, p4, p5, p6, p7⟩ := hprops c hcf
              refine ⟨p1, p2, p3, p4, p5, p6, ?_⟩
              have h3 : s3.nextId = s.nextId + 1 := hnid3
              omega
            · rcases List.mem_singleton.mp hcl with rfl
              exact ⟨rfl, rfl, hre, rfl, rfl, rfl, Nat.le_refl _⟩
          · rw [husers, husers3]
          · rw [hidx, hidx3]
          · have h3 : s3.nextId = s.nextId + 1 := hnid3
            omega
        · -- delivery to another known in-memory user
          have hid0 : u'.id ≠ u0.id :=
            hinj r (List.mem_cons_self r rest) hre u' hru
          have hok' := hok r (List.mem_cons_self r rest) u' hru himp'
          obtain ⟨l', hl'⟩ := Option.ne_none_iff_exists'.mp hok'
          obtain ⟨s3, hstore, hin3, hframe3, husers3, hidx3, hnid3, _, _⟩ :=
            storeMessage_inbox { s with now := s.now + 1, nextId := s.nextId + 1 } u'.id
              (inboxCopy msg r.address s) l' rfl hl'
          obtain ⟨front, s', hrun, hin', hlen, hprops, husers, hidx, hnid⟩ :=
            ih s3 inb0 (husers3 ▸ hu0)
              (by rw [hframe3 u0.id (Ne.symm hid0)]; exact hinb)
              (fun x hx u'' hu'' himp'' => by
                by_cases hid : u''.id = u'.id
                · rw [hid, hin3]; simp
                · rw [hframe3 u''.id hid]
                  exact hok x (List.mem_cons_of_mem r hx) u'' (husers3 ▸ hu'') himp'')
              (fun x hx hxe u'' hu'' =>
                hinj x (List.mem_cons_of_mem r hx) hxe u'' (husers3 ▸ hu''))
          refine ⟨front, s', ?_, hin', ?_, ?_, ?_, ?_, ?_⟩
          · rw [hstep, hstore]
            exact hrun
          · simpa [List.filter_cons, hre] using hlen
          · intro c hc
            obtain ⟨p1, p2, p3, p4, p5, p6, p7⟩ := hprops c hc
            refine ⟨p1, p2, p3, p4, p5, p6, ?_⟩
            have h3 : s3.nextId = s.nextId + 1 := hnid3
            omega
          · rw [husers, husers3]
          · rw [hidx, hidx3]
          · have h3 : s3.nextId = s.nextId + 1 := hnid3
            omega

/-- The pending sent message built by `sendMessage` (abbreviation). -/
def sentMsgOf (sender : UserR) (fmt : String) (p : DraftPayload) (s : Svc) : Msg :=
  { id := s.nextId, fromAddr := sender.email, toAddr := fmt,
    subject := jsTrim p.subject, body := p.body, status := .sent,
    mailbox := "sent", createdAt := s.now, updatedAt := s.now, sentAt := some s.now }

/-- The state after `sendMessage` stores the sent copy for an in-memory
sender (abbreviation). -/
def afterSentStore (sender : UserR) (fmt : String) (p : DraftPayload) (s : Svc)
    (uid : Nat) (bx : List (String × List Msg)) (sl : List Msg) : Svc :=
  { s with
      now := s.now + 1
      nextId := s.nextId + 1
      mailboxes := aset s.mailboxes uid (aset bx "sent" (sentMsgOf sender fmt p s :: sl))
      messages := aset s.messages uid
        (aset ((alookup s.messages uid).getD []) (sentMsgOf sender fmt p s).id
          (sentMsgOf sender fmt p s)) }

theorem sendMessage_inmem_eq (parser : String → List RawAddr) (isEmail : String → Bool)
    (appendSent : UserR → Msg → Svc → Msg × Svc) (s : Svc) (uid : Nat) (p : DraftPayload)
    (sender : UserR) (fmt : String) (bx : List (String × List Msg)) (sl : List Msg)
    (hui : alookup s.userIndex uid = some sender) (hsi : sender.usesImap = false)
    (hlm : s.localMail = false)
    (hto : ¬ jsTrim p.toAddr = "") (hsub : ¬ jsTrim p.subject = "")
    (hfmt : normalizeRecipientList parser isEmail p.toAddr = .ok fmt)
    (hbx : alookup s.mailboxes uid = some bx) (hsl : alookup bx "sent" = some sl) :
    sendMessage parser isEmail appendSent true s uid p =
      (match deliverLoop (sentMsgOf sender fmt p s) (parseAddresses parser isEmail fmt)
          (afterSentStore sender fmt p s uid bx sl) with
        | (some err, s4) => (.error err, s4)
        | (none, s4) => (.ok (sentMsgOf sender fmt p s), s4)) := by
  have hstore : storeMessage { s with now := s.now + 1, nextId := s.nextId + 1 } uid
      (sentMsgOf sender fmt p s) = .ok (afterSentStore sender fmt p s uid bx sl) := by
    simp [storeMessage, hbx, hsl, sentMsgOf, afterSentStore]
  simp only [sentMsgOf, hlm] at hstore
  simp only [sendMessage, hui, hto, hsub, hfmt, hlm, hsi, Bool.false_and, Bool.not_true,
    Bool.not_false, Bool.false_eq_true, reduceIte, hstore, deliverInternalRecipients,
    sentMsgOf, afterSentStore]

theorem inboxOf_afterSentStore (sender : UserR) (fmt : String) (p : DraftPayload) (s : Svc)
    (uid : Nat) (bx : List (String × List Msg)) (sl : List Msg)
    (hbx : alookup s.mailboxes uid = some bx) :
    ∀ uid', inboxOf (afterSentStore sender fmt p s uid bx sl) uid' = inboxOf s uid' := by
  intro uid'
  unfold inboxOf afterSentStore
  by_cases h : uid' = uid
  · subst h
    rw [alookup_aset_self, hbx]
    simp only [Option.some_bind]
    rw [alookup_aset_ne _ _ (by decide : ("sent" : String) ≠ "inbox")]
  · rw [alookup_aset_ne _ _ (fun hc => h hc.symm)]

/-- C4: for a successful `sendMessage` by an in-memory-backed sender with no
local mail server configured: (a) a recipient address matching a known
in-memory-backed user — occurring once in the parsed recipient list —
receives exactly one fresh inbox copy with `status=unread`, a new id distinct
from the sent message's, and the sender's content; (b) when every parsed
recipient is unknown or protocol-backed, the call still succeeds and the only
store change is the sender's own sent copy (zero local deliveries). -/
theorem sendMessage_internal_delivery :
    (∀ (parser : String → List RawAddr) (isEmail : String → Bool)
        (appendSent : UserR → Msg → Svc → Msg × Svc) (s : Svc) (uid : Nat)
        (p : DraftPayload) (sender : UserR) (fmt : String)
        (bx : List (String × List Msg)) (sl : List Msg) (e : String) (u0 : UserR)
        (inb0 : List Msg),
      alookup s.userIndex uid = some sender → sender.usesImap = false →
      s.localMail = false →
      ¬ jsTrim p.toAddr = "" → ¬ jsTrim p.subject = "" →
      normalizeRecipientList parser isEmail p.toAddr = .ok fmt →
      alookup s.mailboxes uid = some bx → alookup bx "sent" = some sl →
      alookup s.users e = some u0 → u0.usesImap = false →
      inboxOf s u0.id = some inb0 →
      ((parseAddresses parser isEmail fmt).filter (fun r => r.address = e)).length = 1 →
      (∀ r ∈ parseAddresses parser isEmail fmt, ∀ u', alookup s.users r.address = some u' →
        u'.usesImap = false → inboxOf s u'.id ≠ none) →
      (∀ r ∈ parseAddresses parser isEmail fmt, r.address ≠ e → ∀ u',
        alookup s.users r.address = some u' → u'.id ≠ u0.id) →
      ∃ m s' c,
        sendMessage parser isEmail appendSent true s uid p = (.ok m, s') ∧
        m.status = .sent ∧ m.mailbox = "sent" ∧
        inboxOf s' u0.id = some (c :: inb0) ∧
        c.status = .unread ∧ c.mailbox = "inbox" ∧ c.toAddr = e ∧
        c.fromAddr = m.fromAddr ∧ c.subject = m.subject ∧ c.body = m.body ∧
        m.id < c.id) ∧
    (∀ (parser : String → List RawAddr) (isEmail : String → Bool)
        (appendSent : UserR → Msg → Svc → Msg × Svc) (s : Svc) (uid : Nat)
        (p : DraftPayload) (sender : UserR) (fmt : String)
        (bx : List (String × List Msg)) (sl : List Msg),
      alookup s.userIndex uid = some sender → sender.usesImap = false →
      s.localMail = false →
      ¬ jsTrim p.toAddr = "" → ¬ jsTrim p.subject = "" →
      normalizeRecipientList parser isEmail p.toAddr = .ok fmt →
      alookup s.mailboxes uid = some bx → alookup bx "sent" = some sl →
      (∀ r ∈ parseAddresses parser isEmail fmt,
        alookup s.users r.address = none ∨
        ∃ u', alookup s.users r.address = some u' ∧ u'.usesImap = true) →
      sendMessage parser isEmail appendSent true s uid p =
        (.ok (sentMsgOf sender fmt p s), afterSentStore sender fmt p s uid bx sl)) := by
  constructor
  · intro parser isEmail appendSent s uid p sender fmt bx sl e u0 inb0
      hui hsi hlm hto hsub hfmt hbx hsl hu0 h0i hinb hcount hok hinj
    rw [sendMessage_inmem_eq parser isEmail appendSent s uid p sender fmt bx sl
      hui hsi hlm hto hsub hfmt hbx hsl]
    have hinb3 := inboxOf_afterSentStore sender fmt p s uid bx sl hbx
    obtain ⟨front, s', hrun, hin', hlen, hprops, _, _, hnid⟩ :=
      deliverLoop_spec (sentMsgOf sender fmt p s) e u0 h0i
        (parseAddresses parser isEmail fmt) (afterSentStore sender fmt p s uid bx sl)
        inb0 hu0 (by rw [hinb3]; exact hinb)
        (fun r hr u' hu' himp' => by
          rw [hinb3]
          exact hok r hr u' hu' himp')
        (fun r hr hre u' hu' => hinj r hr hre u' hu')
    rw [hrun]
    have hlen1 : front.length = 1 := by rw [hlen, hcount]
    obtain ⟨c, hc⟩ := List.length_eq_one.mp hlen1
    obtain ⟨p1, p2, p3, p4, p5, p6, p7⟩ := hprops c (by rw [hc]; exact List.mem_singleton_self c)
    refine ⟨sentMsgOf sender fmt p s, s', c, rfl, rfl, rfl, ?_, p1, p2, p3, p4, p5, p6, ?_⟩
    · rw [hin', hc]
      rfl
    · have : (afterSentStore sender fmt p s uid bx sl).nextId = s.nextId + 1 := rfl
      have hm : (sentMsgOf sender fmt p s).id = s.nextId := rfl
      omega
  · intro parser isEmail appendSent s uid p sender fmt bx sl
      hui hsi hlm hto hsub hfmt hbx hsl hskip
    rw [sendMessage_inmem_eq parser isEmail appendSent s uid p sender fmt bx sl
      hui hsi hlm hto hsub hfmt hbx hsl]
    rw [deliverLoop_skip_all (sentMsgOf sender fmt p s) (parseAddresses parser isEmail fmt)
      (afterSentStore sender fmt p s uid bx sl) hskip]

/-- Witness for `sendMessage_internal_delivery`: alice (in-memory) sends to
bob (in-memory) on `demoSvc`; exactly one unread copy lands in bob's inbox. -/
theorem sendMessage_internal_delivery_witness :
    ∃ m s' c,
      sendMessage (fun _ => [⟨"", "bob@fastmail.test"⟩]) (fun _ => true)
          (fun _ m st => (m, st)) true demoSvc 1
          { fromAddr := "", toAddr := "bob@fastmail.test", subject := "Hello", body := "B" }
        = (.ok m, s') ∧
      m.status = .sent ∧ m.mailbox = "sent" ∧
      inboxOf s' bobUser.id = some (c :: [demoMsg]) ∧
      c.status = .unread ∧ c.mailbox = "inbox" ∧ c.toAddr = "bob@fastmail.test" ∧
      c.fromAddr = m.fromAddr ∧ c.subject = m.subject ∧ c.body = m.body ∧
      m.id < c.id := by
  refine sendMessage_internal_delivery.1 (fun _ => [⟨"", "bob@fastmail.test"⟩])
    (fun _ => true) (fun _ m st => (m, st)) demoSvc 1
    { fromAddr := "", toAddr := "bob@fastmail.test", subject := "Hello", body := "B" }
    aliceUser "bob@fastmail.test" [("inbox", []), ("sent", []), ("archive", [])] []
    "bob@fastmail.test" bobUser [demoMsg]
    rfl rfl rfl (by decide) (by decide) rfl rfl rfl rfl rfl rfl (by decide)
    ?_ ?_
  · intro r hr u' hu' _
    rw [show parseAddresses (fun _ => [⟨"", "bob@fastmail.test"⟩]) (fun _ => true)
        "bob@fastmail.test" =
        [⟨"bob@fastmail.test", "bob@fastmail.test"⟩] from by decide] at hr
    rcases List.mem_singleton.mp hr with rfl
    have hb : alookup demoSvc.users "bob@fastmail.test" = some bobUser := rfl
    rw [hb] at hu'
    rw [← Option.some_inj.mp hu']
    decide
  · intro r hr hre u' _
    rw [show parseAddresses (fun _ => [⟨"", "bob@fastmail.test"⟩]) (fun _ => true)
        "bob@fastmail.test" =
        [⟨"bob@fastmail.test", "bob@fastmail.test"⟩] from by decide] at hr
    rcases List.mem_singleton.mp hr with rfl
    exact absurd rfl hre
